import Mathlib

/-!
Verification of the skelly-animatronics control sketch.

The sketch drives four servos (three head axes and a jaw) from a single
cooperative loop.  We embed the global state of the sketch as a structure and
each subsystem function as a state transformer.  Conventions of the embedding:

* C float arithmetic is modelled with exact rationals.
* millis() timestamps are natural numbers; the sketch subtracts unsigned
  longs, which matches truncated Nat subtraction on a monotone clock.
* Servo.write / Servo.read are modelled with a per-servo command log; the
  head of the log is the last commanded value, which is what read returns.
* Calls to the random source are explicit arguments; the Arduino contract
  random(a, b) returns a value in [a, b-1].
* sin is an external math routine; updateBreathing takes the value of
  sin(breathCycle * 2 * PI) as an explicit argument.
* The 20-byte char buffer currentPhrase is a list of 20 characters; the NUL
  byte is Char.ofNat 0, and strlen / strncpy are modelled on such buffers.
* delay(JAW_CLOSE_DURATION) advances the clock seen by the following
  smoothJawMovement call, which is how the sketch behaves at punctuation.
-/

namespace Skelly

/-- NUL byte used as the C string terminator. -/
def nullChar : Char := Char.ofNat 0

/-- Empty C string literal. -/
def emptyString : String := ""

-- Servo position ranges (source lines 37-45).
def DEFAULT_POSITION : Int := 90
def JAW_CLOSED : Int := 115
def JAW_OPEN_MAX : Int := 70
def HEAD_ROTATION_MIN : Int := 60
def HEAD_ROTATION_MAX : Int := 120
def HEAD_X_MIN : Int := 75
def HEAD_X_MAX : Int := 115
def HEAD_Y_MIN : Int := 75
def HEAD_Y_MAX : Int := 115

-- Timing constants in milliseconds (source lines 49-55).
def LETTER_DURATION : Nat := 100
def HEAD_MOVE_DURATION : Nat := 5000
def GRADUAL_MOVE_INTERVAL : Nat := 20
def JAW_SMOOTH_INTERVAL : Nat := 10
def RANDOM_MOVE_INTERVAL : Nat := 1000
def PHRASE_DURATION : Nat := 10000
def JAW_CLOSE_DURATION : Nat := 200

-- Movement parameters (source lines 58-64).
def JAW_SMOOTHING_STEP : Int := 5
def RANDOM_MOVE_RANGE : Int := 35
def HEAD_MOVE_SPEED : ℚ := 8
def BREATH_INTERVAL : Nat := 3000
def BREATH_AMPLITUDE : ℚ := 2

/-- Arduino constrain macro: clamp x into [lo, hi]. -/
def cConstrain (x lo hi : ℚ) : ℚ :=
  if x < lo then lo else if x > hi then hi else x

/-- Arduino map function on long integers; C long division truncates toward
zero, which is Int.tdiv. -/
def cMap (x inMin inMax outMin outMax : Int) : Int :=
  Int.tdiv ((x - inMin) * (outMax - outMin)) (inMax - inMin) + outMin

/-- C stdlib abs on int. -/
def cAbs (x : Int) : Int := if x < 0 then -x else x

/-- C round on float: round half away from zero. -/
def cRound (x : ℚ) : Int := if x < 0 then -⌊-x + 1/2⌋ else ⌊x + 1/2⌋

/-- C strlen on a character buffer: number of characters before the first
NUL byte. -/
def strlenBuf (l : List Char) : Nat :=
  (l.takeWhile (fun c => c != nullChar)).length

/-- Read one byte of a character buffer. -/
def phraseGet (l : List Char) (i : Nat) : Char := l.getD i nullChar

/-- C strncpy of a NUL-free source string into a buffer: the first n bytes of
the destination receive source bytes, padded with NUL once the source is
exhausted; bytes beyond n keep their old value. -/
def strncpyBuf (dest src : List Char) (n : Nat) : List Char :=
  (List.range dest.length).map fun i =>
    if i < n then src.getD i nullChar else dest.getD i nullChar

/-- The copy performed by generateNewPhrase (source lines 287-288):
strncpy into the 20-byte buffer with count sizeof-1, then force a NUL
terminator into the last byte. -/
def copyPhraseIntoBuffer (dest src : List Char) : List Char :=
  (strncpyBuf dest src 19).set 19 nullChar

-- Letter-to-jaw table for A..Z (source lines 103-110).
def letterToJaw : List Int :=
  [50, 25, 38, 25, 50,
   25, 38, 25, 50, 25,
   25, 25, 38, 38, 50,
   25, 25, 38, 38, 25,
   50, 25, 25, 38, 50,
   25]

-- Preset phrase catalog (source lines 113-124).
def phrases : List String :=
  ["HELLO THERE",
   "HOW ARE YOU",
   "I AM A SKELETON",
   "NICE TO MEET YOU",
   "WELCOME TO MY LAIR",
   "BEWARE OF GHOSTS",
   "HAPPY HALLOWEEN",
   "BOO DID I SCARE YOU",
   "LETS HAVE SOME FUN",
   "TIME FOR A PARTY"]

def numPhrases : Nat := phrases.length

/-- getJawPositionForLetter (source lines 298-303). -/
def getJawPositionForLetter (letter : Char) : Int :=
  if 'A' ≤ letter ∧ letter ≤ 'Z' then
    letterToJaw.getD (letter.toNat - 'A'.toNat) 0
  else
    0

/-- isSilentCharacter (source lines 338-340). -/
def isSilentCharacter (c : Char) : Bool :=
  c == ' ' || c == '.' || c == ',' || c == '!'

/-- The jaw target computed for one consumed character inside
updateJawMovement (source lines 177-185): the closed position for a silent
character, otherwise the table aperture remapped from [0,50] into
[JAW_CLOSED, JAW_OPEN_MAX]. -/
def jawTargetForChar (c : Char) : Int :=
  if isSilentCharacter c then JAW_CLOSED
  else cMap (getJawPositionForLetter c) 0 50 JAW_CLOSED JAW_OPEN_MAX

/-- Global mutable state of the sketch: the cadence timestamps, the float
target and current positions, the breathing offset, the phrase buffer with
its letter index, and one command log per servo. -/
structure SkellyState where
  lastLetterTime : Nat
  lastHeadMoveTime : Nat
  lastGradualMoveTime : Nat
  lastJawSmoothTime : Nat
  lastRandomMoveTime : Nat
  lastPhraseTime : Nat
  lastBreathTime : Nat
  targetRotation : ℚ
  targetX : ℚ
  targetY : ℚ
  currentRotation : ℚ
  currentX : ℚ
  currentY : ℚ
  breathOffset : ℚ
  currentPhrase : List Char
  currentLetterIndex : Nat
  rLog : List Int
  xLog : List Int
  yLog : List Int
  jawLog : List Int

/-- State after setup() (source lines 128-145): every timer at zero, all
positions at the neutral default, an all-NUL phrase buffer, and the initial
servo writes (default position for the head axes, closed for the jaw). -/
def initialState : SkellyState where
  lastLetterTime := 0
  lastHeadMoveTime := 0
  lastGradualMoveTime := 0
  lastJawSmoothTime := 0
  lastRandomMoveTime := 0
  lastPhraseTime := 0
  lastBreathTime := 0
  targetRotation := 90
  targetX := 90
  targetY := 90
  currentRotation := 90
  currentX := 90
  currentY := 90
  breathOffset := 0
  currentPhrase := List.replicate 20 nullChar
  currentLetterIndex := 0
  rLog := [90]
  xLog := [90]
  yLog := [90]
  jawLog := [115]

/-- Servo.read on the jaw servo: the last commanded value. -/
def jawRead (s : SkellyState) : Int := s.jawLog.headD 0

/-- moveTowards helper (source lines 327-335). -/
def moveTowards (current target maxMove : ℚ) : ℚ :=
  if |current - target| ≤ maxMove then target
  else if current < target then current + maxMove
  else current - maxMove

/-- The clamped single step taken by smoothJawMovement when the distance to
the target is small (source lines 313-319). -/
def jawStep (currentPosition targetPosition : Int) : Int :=
  if currentPosition < targetPosition then
    let stepped := currentPosition + JAW_SMOOTHING_STEP
    if stepped > targetPosition then targetPosition else stepped
  else if currentPosition > targetPosition then
    let stepped := currentPosition - JAW_SMOOTHING_STEP
    if stepped < targetPosition then targetPosition else stepped
  else currentPosition

/-- smoothJawMovement (source lines 306-323): snap to the target when the
distance exceeds twice the smoothing step, otherwise take one clamped step
when the smoothing cadence has elapsed. -/
def smoothJawMovement (now : Nat) (targetPosition : Int) (s : SkellyState) :
    SkellyState :=
  let currentPosition := jawRead s
  if cAbs (currentPosition - targetPosition) > JAW_SMOOTHING_STEP * 2 then
    { s with jawLog := targetPosition :: s.jawLog }
  else if JAW_SMOOTH_INTERVAL ≤ now - s.lastJawSmoothTime then
    { s with jawLog := jawStep currentPosition targetPosition :: s.jawLog,
             lastJawSmoothTime := now }
  else s

/-- updateJawMovement (source lines 171-201).  A silent character performs
delay(JAW_CLOSE_DURATION), so the smoothJawMovement calls that follow it see
a clock advanced by that amount. -/
def updateJawMovement (now : Nat) (s : SkellyState) : SkellyState :=
  if phraseGet s.currentPhrase 0 ≠ nullChar then
    if LETTER_DURATION ≤ now - s.lastLetterTime then
      let currentLetter := phraseGet s.currentPhrase s.currentLetterIndex
      let targetJawPosition := jawTargetForChar currentLetter
      let tNow := if isSilentCharacter currentLetter
                  then now + JAW_CLOSE_DURATION else now
      let s1 := smoothJawMovement tNow targetJawPosition s
      let s2 := { s1 with currentLetterIndex := s1.currentLetterIndex + 1 }
      let s3 :=
        if strlenBuf s2.currentPhrase ≤ s2.currentLetterIndex then
          smoothJawMovement tNow JAW_CLOSED
            { s2 with currentPhrase := s2.currentPhrase.set 0 nullChar,
                      currentLetterIndex := 0 }
        else s2
      { s3 with lastLetterTime := now }
    else s
  else
    smoothJawMovement now JAW_CLOSED s

/-- updateHeadMovement (source lines 204-215).  randR, randX, randY are the
three random(min, max + 1) draws. -/
def updateHeadMovement (now : Nat) (randR randX randY : Int)
    (s : SkellyState) : SkellyState :=
  if HEAD_MOVE_DURATION ≤ now - s.lastHeadMoveTime then
    { s with targetRotation := (randR : ℚ),
             targetX := (randX : ℚ),
             targetY := (randY : ℚ),
             lastHeadMoveTime := now,
             lastRandomMoveTime := now }
  else s

/-- randomMovementsBetweenSentences (source lines 218-234).  rr, rx, ry are
the three random(-RANDOM_MOVE_RANGE, RANDOM_MOVE_RANGE + 1) draws, each
divided by 10 before use. -/
def randomMovementsBetweenSentences (now : Nat) (rr rx ry : Int)
    (s : SkellyState) : SkellyState :=
  if phraseGet s.currentPhrase 0 = nullChar ∧
      RANDOM_MOVE_INTERVAL ≤ now - s.lastRandomMoveTime then
    let randomR : ℚ := (rr : ℚ) / 10
    let randomX : ℚ := (rx : ℚ) / 10
    let randomY : ℚ := (ry : ℚ) / 10
    { s with
        targetRotation := cConstrain (s.targetRotation + randomR)
          (HEAD_ROTATION_MIN : ℚ) (HEAD_ROTATION_MAX : ℚ),
        targetX := cConstrain (s.targetX + randomX)
          (HEAD_X_MIN : ℚ) (HEAD_X_MAX : ℚ),
        targetY := cConstrain (s.targetY + randomY)
          (HEAD_Y_MIN : ℚ) (HEAD_Y_MAX : ℚ),
        lastRandomMoveTime := now }
  else s

/-- updateBreathing (source lines 237-246).  sinVal is the value of
sin(breathCycle * 2 * PI) computed by the external math routine; it is
multiplied by the amplitude, added into the vertical target, and the result
is clamped. -/
def updateBreathing (now : Nat) (sinVal : ℚ) (s : SkellyState) :
    SkellyState :=
  if 20 ≤ now - s.lastBreathTime then
    let offset := sinVal * BREATH_AMPLITUDE
    { s with breathOffset := offset,
             targetY := cConstrain (s.targetY + offset)
               (HEAD_Y_MIN : ℚ) (HEAD_Y_MAX : ℚ),
             lastBreathTime := now }
  else s

/-- One axis of graduallyMoveServos (source lines 256-275): interpolate the
current position toward the target and, when the float value changed, record
it and command the servo with the rounded value. -/
def gradAxis (cur tgt m : ℚ) (log : List Int) : ℚ × List Int :=
  let nw := moveTowards cur tgt m
  if nw ≠ cur then (nw, cRound nw :: log) else (cur, log)

/-- graduallyMoveServos (source lines 249-279). -/
def graduallyMoveServos (now : Nat) (s : SkellyState) : SkellyState :=
  if GRADUAL_MOVE_INTERVAL ≤ now - s.lastGradualMoveTime then
    let elapsedSeconds : ℚ := ((now - s.lastGradualMoveTime : Nat) : ℚ) / 1000
    let maxMove := HEAD_MOVE_SPEED * elapsedSeconds
    let r := gradAxis s.currentRotation s.targetRotation maxMove s.rLog
    let x := gradAxis s.currentX s.targetX maxMove s.xLog
    let y := gradAxis s.currentY s.targetY maxMove s.yLog
    { s with currentRotation := r.1, rLog := r.2,
             currentX := x.1, xLog := x.2,
             currentY := y.1, yLog := y.2,
             lastGradualMoveTime := now }
  else s

/-- generateNewPhrase (source lines 282-295).  randIdx is the random draw
over the catalog; the diagnostic serial output carries no state. -/
def generateNewPhrase (now : Nat) (randIdx : Nat) (s : SkellyState) :
    SkellyState :=
  if phraseGet s.currentPhrase 0 = nullChar ∧
      PHRASE_DURATION ≤ now - s.lastPhraseTime then
    { s with
        currentPhrase :=
          copyPhraseIntoBuffer s.currentPhrase
            (phrases.getD randIdx emptyString).toList,
        currentLetterIndex := 0,
        lastPhraseTime := now }
  else s

/-- Maximum distance an axis may cover in one interpolation call, from the
elapsed milliseconds since the previous interpolation update. -/
def interpMaxMove (s : SkellyState) (now : Nat) : ℚ :=
  HEAD_MOVE_SPEED * (((now - s.lastGradualMoveTime : Nat) : ℚ) / 1000)

/-- A position lies within the closed integer bound [lo, hi]. -/
def inBound (lo hi : Int) (q : ℚ) : Prop := (lo : ℚ) ≤ q ∧ q ≤ (hi : ℚ)

/-- All three head axis targets and current positions lie within their
configured bounds. -/
def headInv (s : SkellyState) : Prop :=
  inBound HEAD_ROTATION_MIN HEAD_ROTATION_MAX s.targetRotation ∧
  inBound HEAD_X_MIN HEAD_X_MAX s.targetX ∧
  inBound HEAD_Y_MIN HEAD_Y_MAX s.targetY ∧
  inBound HEAD_ROTATION_MIN HEAD_ROTATION_MAX s.currentRotation ∧
  inBound HEAD_X_MIN HEAD_X_MAX s.currentX ∧
  inBound HEAD_Y_MIN HEAD_Y_MAX s.currentY

/-- The phrase buffer is the well-formed 20-byte C buffer of the sketch and
the letter index is in range whenever a phrase is active. -/
def phraseInv (s : SkellyState) : Prop :=
  s.currentPhrase.length = 20 ∧
  phraseGet s.currentPhrase 19 = nullChar ∧
  (strlenBuf s.currentPhrase = 0 ∨
    s.currentLetterIndex < strlenBuf s.currentPhrase)

/-- Concrete state with a fractional rotation target, as the idle jitter
produces (its deltas are tenths of a degree): targetRotation 90.3 with the
servo last commanded at 90. -/
def c3state : SkellyState := { initialState with targetRotation := 903/10 }

/-- Call times of the updateJawMovement invocations that speak the phrase
HELLO THERE installed at time 10000: one letter each 100 ms, with the gap
after 10600 accounting for the delay performed at the silent space. -/
def c4jawTimes : List Nat :=
  [10100, 10200, 10300, 10400, 10500, 10600, 10900, 11000, 11100, 11200]

/-- State after the first generateNewPhrase fires at time 10000 (random
index 0 selects HELLO THERE). -/
def c4afterFirst : SkellyState := generateNewPhrase 10000 0 initialState

/-- State after the first ten letters of HELLO THERE have been consumed;
the final letter is still pending. -/
def c4beforeEnd : SkellyState :=
  c4jawTimes.foldl (fun st t => updateJawMovement t st) c4afterFirst

/-- State after the updateJawMovement call at time 11300 consumes the final
letter: the phrase ends here and the buffer is cleared. -/
def c4afterEnd : SkellyState := updateJawMovement 11300 c4beforeEnd

/-- State after generateNewPhrase fires again at time 20000, only 8700 ms
after the phrase ended at 11300. -/
def c4afterSecond : SkellyState := generateNewPhrase 20000 1 c4afterEnd

/-!  Helper lemmas about the interpolation primitive. -/

lemma moveTowards_cases (c t m : ℚ) :
    (|c - t| ≤ m ∧ moveTowards c t m = t) ∨
    (c + m < t ∧ moveTowards c t m = c + m) ∨
    (t < c - m ∧ moveTowards c t m = c - m) := by
  unfold moveTowards
  split_ifs with h1 h2
  · exact Or.inl ⟨h1, rfl⟩
  · refine Or.inr (Or.inl ⟨?_, rfl⟩)
    have h3 : m < |c - t| := lt_of_not_le h1
    rw [abs_of_neg (by linarith : c - t < 0)] at h3
    linarith
  · refine Or.inr (Or.inr ⟨?_, rfl⟩)
    have h3 : m < |c - t| := lt_of_not_le h1
    have hct : t ≤ c := le_of_not_lt h2
    rw [abs_of_nonneg (by linarith : (0 : ℚ) ≤ c - t)] at h3
    linarith

lemma moveTowards_dist_le (c t m : ℚ) (hm : 0 ≤ m) :
    |moveTowards c t m - t| ≤ |c - t| := by
  rcases moveTowards_cases c t m with ⟨h, he⟩ | ⟨h, he⟩ | ⟨h, he⟩ <;> rw [he]
  · simp [abs_nonneg (c - t)]
  · rw [abs_of_neg (by linarith : c + m - t < 0),
      abs_of_neg (by linarith : c - t < 0)]
    linarith
  · rw [abs_of_pos (by linarith : 0 < c - m - t),
      abs_of_pos (by linarith : 0 < c - t)]
    linarith

lemma moveTowards_step_le (c t m : ℚ) (hm : 0 ≤ m) :
    |moveTowards c t m - c| ≤ m := by
  rcases moveTowards_cases c t m with ⟨h, he⟩ | ⟨h, he⟩ | ⟨h, he⟩ <;> rw [he]
  · rw [abs_sub_comm]; exact h
  · rw [show c + m - c = m by ring, abs_of_nonneg hm]
  · rw [show c - m - c = -m by ring, abs_neg, abs_of_nonneg hm]

lemma moveTowards_between (c t m : ℚ) (hm : 0 ≤ m) :
    min c t ≤ moveTowards c t m ∧ moveTowards c t m ≤ max c t := by
  rcases moveTowards_cases c t m with ⟨h, he⟩ | ⟨h, he⟩ | ⟨h, he⟩ <;> rw [he]
  · exact ⟨min_le_right c t, le_max_right c t⟩
  · exact ⟨le_trans (min_le_left c t) (by linarith),
      le_trans (le_of_lt h) (le_max_right c t)⟩
  · exact ⟨le_trans (min_le_right c t) (le_of_lt h),
      le_trans (by linarith) (le_max_left c t)⟩

lemma cConstrain_mem (x lo hi : ℚ) (h : lo ≤ hi) :
    lo ≤ cConstrain x lo hi ∧ cConstrain x lo hi ≤ hi := by
  unfold cConstrain
  split_ifs with h1 h2 <;> constructor <;> linarith

lemma interpMaxMove_nonneg (s : SkellyState) (now : Nat) :
    0 ≤ interpMaxMove s now := by
  unfold interpMaxMove HEAD_MOVE_SPEED
  positivity

/-!  Projection lemmas for graduallyMoveServos. -/

lemma gradAxis_fst (c t m : ℚ) (log : List Int) :
    (gradAxis c t m log).1 = moveTowards c t m := by
  simp only [gradAxis]
  split_ifs with h
  · rfl
  · exact (not_ne_iff.mp h).symm

lemma grad_currentRotation (now : Nat) (s : SkellyState) :
    (graduallyMoveServos now s).currentRotation =
      if GRADUAL_MOVE_INTERVAL ≤ now - s.lastGradualMoveTime
      then moveTowards s.currentRotation s.targetRotation (interpMaxMove s now)
      else s.currentRotation := by
  unfold graduallyMoveServos interpMaxMove
  split_ifs with h
  · simp [gradAxis_fst]
  · rfl

lemma grad_currentX (now : Nat) (s : SkellyState) :
    (graduallyMoveServos now s).currentX =
      if GRADUAL_MOVE_INTERVAL ≤ now - s.lastGradualMoveTime
      then moveTowards s.currentX s.targetX (interpMaxMove s now)
      else s.currentX := by
  unfold graduallyMoveServos interpMaxMove
  split_ifs with h
  · simp [gradAxis_fst]
  · rfl

lemma grad_currentY (now : Nat) (s : SkellyState) :
    (graduallyMoveServos now s).currentY =
      if GRADUAL_MOVE_INTERVAL ≤ now - s.lastGradualMoveTime
      then moveTowards s.currentY s.targetY (interpMaxMove s now)
      else s.currentY := by
  unfold graduallyMoveServos interpMaxMove
  split_ifs with h
  · simp [gradAxis_fst]
  · rfl

lemma grad_targetRotation (now : Nat) (s : SkellyState) :
    (graduallyMoveServos now s).targetRotation = s.targetRotation := by
  unfold graduallyMoveServos
  split_ifs <;> rfl

lemma grad_targetX (now : Nat) (s : SkellyState) :
    (graduallyMoveServos now s).targetX = s.targetX := by
  unfold graduallyMoveServos
  split_ifs <;> rfl

lemma grad_targetY (now : Nat) (s : SkellyState) :
    (graduallyMoveServos now s).targetY = s.targetY := by
  unfold graduallyMoveServos
  split_ifs <;> rfl

/-- C1: in every interpolation call, on each head axis, the new current
position is never farther from the target than the old current position was,
and the distance moved is at most HEAD_MOVE_SPEED times the elapsed seconds
since the previous interpolation update. -/
theorem interpolation_no_overshoot (s : SkellyState) (now : Nat) :
    (|(graduallyMoveServos now s).currentRotation - s.targetRotation| ≤
        |s.currentRotation - s.targetRotation| ∧
      |(graduallyMoveServos now s).currentRotation - s.currentRotation| ≤
        interpMaxMove s now) ∧
    (|(graduallyMoveServos now s).currentX - s.targetX| ≤
        |s.currentX - s.targetX| ∧
      |(graduallyMoveServos now s).currentX - s.currentX| ≤
        interpMaxMove s now) ∧
    (|(graduallyMoveServos now s).currentY - s.targetY| ≤
        |s.currentY - s.targetY| ∧
      |(graduallyMoveServos now s).currentY - s.currentY| ≤
        interpMaxMove s now) := by
  have hm := interpMaxMove_nonneg s now
  refine ⟨⟨?_, ?_⟩, ⟨?_, ?_⟩, ⟨?_, ?_⟩⟩
  · rw [grad_currentRotation]
    split_ifs with h
    · exact moveTowards_dist_le _ _ _ hm
    · exact le_refl _
  · rw [grad_currentRotation]
    split_ifs with h
    · exact moveTowards_step_le _ _ _ hm
    · simpa using hm
  · rw [grad_currentX]
    split_ifs with h
    · exact moveTowards_dist_le _ _ _ hm
    · exact le_refl _
  · rw [grad_currentX]
    split_ifs with h
    · exact moveTowards_step_le _ _ _ hm
    · simpa using hm
  · rw [grad_currentY]
    split_ifs with h
    · exact moveTowards_dist_le _ _ _ hm
    · exact le_refl _
  · rw [grad_currentY]
    split_ifs with h
    · exact moveTowards_step_le _ _ _ hm
    · simpa using hm

/-- C2: from the neutral initial state, the targets of the three head axes
stay within their configured bounds across updateHeadMovement (under the
random-source contract), randomMovementsBetweenSentences, updateBreathing
and graduallyMoveServos, and the current positions stay within the bounds as
well, in particular after interpolation. -/
theorem head_bounds_invariant :
    headInv initialState ∧
    (∀ s now rR rX rY, HEAD_ROTATION_MIN ≤ rR → rR ≤ HEAD_ROTATION_MAX →
      HEAD_X_MIN ≤ rX → rX ≤ HEAD_X_MAX → HEAD_Y_MIN ≤ rY → rY ≤ HEAD_Y_MAX →
      headInv s → headInv (updateHeadMovement now rR rX rY s)) ∧
    (∀ s now rr rx ry, headInv s →
      headInv (randomMovementsBetweenSentences now rr rx ry s)) ∧
    (∀ s now sinVal, headInv s → headInv (updateBreathing now sinVal s)) ∧
    (∀ s now, headInv s → headInv (graduallyMoveServos now s)) := by
  refine ⟨?_, ?_, ?_, ?_, ?_⟩
  · unfold headInv inBound initialState
    norm_num [HEAD_ROTATION_MIN, HEAD_ROTATION_MAX, HEAD_X_MIN, HEAD_X_MAX,
      HEAD_Y_MIN, HEAD_Y_MAX]
  · intro s now rR rX rY h1 h2 h3 h4 h5 h6 hs
    unfold headInv inBound at hs ⊢
    obtain ⟨_, _, _, hc1, hc2, hc3⟩ := hs
    unfold updateHeadMovement
    split_ifs with hgate
    · dsimp only
      exact ⟨⟨by exact_mod_cast h1, by exact_mod_cast h2⟩,
        ⟨by exact_mod_cast h3, by exact_mod_cast h4⟩,
        ⟨by exact_mod_cast h5, by exact_mod_cast h6⟩, hc1, hc2, hc3⟩
    · exact ⟨by assumption, by assumption, by assumption, hc1, hc2, hc3⟩
  · intro s now rr rx ry hs
    unfold headInv inBound at hs ⊢
    obtain ⟨ht1, ht2, ht3, hc1, hc2, hc3⟩ := hs
    unfold randomMovementsBetweenSentences
    split_ifs with hgate
    · exact ⟨cConstrain_mem _ _ _ (by
          norm_num [HEAD_ROTATION_MIN, HEAD_ROTATION_MAX]),
        cConstrain_mem _ _ _ (by norm_num [HEAD_X_MIN, HEAD_X_MAX]),
        cConstrain_mem _ _ _ (by norm_num [HEAD_Y_MIN, HEAD_Y_MAX]),
        hc1, hc2, hc3⟩
    · exact ⟨ht1, ht2, ht3, hc1, hc2, hc3⟩
  · intro s now sinVal hs
    unfold headInv inBound at hs ⊢
    obtain ⟨ht1, ht2, ht3, hc1, hc2, hc3⟩ := hs
    unfold updateBreathing
    split_ifs with hgate
    · exact ⟨ht1, ht2,
        cConstrain_mem _ _ _ (by norm_num [HEAD_Y_MIN, HEAD_Y_MAX]),
        hc1, hc2, hc3⟩
    · exact ⟨ht1, ht2, ht3, hc1, hc2, hc3⟩
  · intro s now hs
    have hm := interpMaxMove_nonneg s now
    unfold headInv inBound at hs ⊢
    obtain ⟨⟨a1, a2⟩, ⟨b1, b2⟩, ⟨c1, c2⟩, ⟨d1, d2⟩, ⟨e1, e2⟩, ⟨f1, f2⟩⟩ := hs
    rw [grad_targetRotation, grad_targetX, grad_targetY, grad_currentRotation,
      grad_currentX, grad_currentY]
    refine ⟨⟨a1, a2⟩, ⟨b1, b2⟩, ⟨c1, c2⟩, ?_, ?_, ?_⟩
    · split_ifs with h
      · obtain ⟨g1, g2⟩ :=
          moveTowards_between s.currentRotation s.targetRotation _ hm
        exact ⟨le_trans (le_min d1 a1) g1, le_trans g2 (max_le d2 a2)⟩
      · exact ⟨d1, d2⟩
    · split_ifs with h
      · obtain ⟨g1, g2⟩ := moveTowards_between s.currentX s.targetX _ hm
        exact ⟨le_trans (le_min e1 b1) g1, le_trans g2 (max_le e2 b2)⟩
      · exact ⟨e1, e2⟩
    · split_ifs with h
      · obtain ⟨g1, g2⟩ := moveTowards_between s.currentY s.targetY _ hm
        exact ⟨le_trans (le_min f1 c1) g1, le_trans g2 (max_le f2 c2)⟩
      · exact ⟨f1, f2⟩

/-- Witness for C2: a concrete chain macro-move then interpolation starting
at the initial state stays within bounds. -/
theorem head_bounds_invariant_witness :
    headInv (graduallyMoveServos 20
      (updateHeadMovement 5000 60 75 75 initialState)) :=
  head_bounds_invariant.2.2.2.2 _ 20
    (head_bounds_invariant.2.1 initialState 5000 60 75 75 (by decide)
      (by decide) (by decide) (by decide) (by decide) (by decide)
      head_bounds_invariant.1)

/-!  Projection lemmas for the servo command logs. -/

lemma grad_rLog (now : Nat) (s : SkellyState) :
    (graduallyMoveServos now s).rLog =
      if GRADUAL_MOVE_INTERVAL ≤ now - s.lastGradualMoveTime
      then (gradAxis s.currentRotation s.targetRotation (interpMaxMove s now)
        s.rLog).2
      else s.rLog := by
  unfold graduallyMoveServos interpMaxMove
  split_ifs with h <;> rfl

lemma grad_xLog (now : Nat) (s : SkellyState) :
    (graduallyMoveServos now s).xLog =
      if GRADUAL_MOVE_INTERVAL ≤ now - s.lastGradualMoveTime
      then (gradAxis s.currentX s.targetX (interpMaxMove s now) s.xLog).2
      else s.xLog := by
  unfold graduallyMoveServos interpMaxMove
  split_ifs with h <;> rfl

lemma grad_yLog (now : Nat) (s : SkellyState) :
    (graduallyMoveServos now s).yLog =
      if GRADUAL_MOVE_INTERVAL ≤ now - s.lastGradualMoveTime
      then (gradAxis s.currentY s.targetY (interpMaxMove s now) s.yLog).2
      else s.yLog := by
  unfold graduallyMoveServos interpMaxMove
  split_ifs with h <;> rfl

lemma gradAxis_snd (c t m : ℚ) (log : List Int) :
    (gradAxis c t m log).2 =
      if moveTowards c t m ≠ c then cRound (moveTowards c t m) :: log
      else log := by
  simp only [gradAxis]
  split_ifs <;> rfl

/-- C3 counterexample: graduallyMoveServos does not deduplicate on the
rounded value.  With the rotation servo last commanded at 90, current
position 90 and target 90.3, the call at 20 ms moves the float position to
90.16 and commands the servo with round(90.16) = 90, repeating the
previously written value.  The claim that a repeated rounded value is never
written is therefore false. -/
theorem rounded_write_dedup_counterexample :
    ¬ (∀ (s : SkellyState) (now : Nat),
        (graduallyMoveServos now s).rLog ≠ s.rLog →
        (graduallyMoveServos now s).rLog.headD 0 ≠ s.rLog.headD 0) := by
  intro h
  have key : (graduallyMoveServos 20 c3state).rLog = [90, 90] := by
    rw [grad_rLog, if_pos (by decide), gradAxis_snd]
    have em : interpMaxMove c3state 20 = 4/25 := by
      unfold interpMaxMove HEAD_MOVE_SPEED c3state initialState
      norm_num
    have hc : c3state.currentRotation = 90 := rfl
    have ht : c3state.targetRotation = 903/10 := rfl
    have hr : c3state.rLog = [90] := rfl
    rw [em, hc, ht, hr]
    have hmv : moveTowards 90 (903/10) (4/25) = 2254/25 := by
      unfold moveTowards
      rw [if_neg (by rw [abs_of_nonpos (by norm_num)]; norm_num),
        if_pos (by norm_num)]
      norm_num
    rw [hmv, if_pos (by norm_num : (2254/25 : ℚ) ≠ 90)]
    have hcr : cRound (2254/25) = 90 := by
      unfold cRound
      rw [if_neg (by norm_num)]
      norm_num [Int.floor_eq_iff]
    rw [hcr]
  have h2 := h c3state 20 (by rw [key]; decide)
  rw [key] at h2
  exact h2 (by decide)

/-- C3 as amended: on every interpolation call and every head axis, a servo
command is issued exactly when the float current position of that axis
changed: either the command log and the float position are both unchanged,
or the float position changed and exactly the rounding of the new float
position was appended to the command log.  The guard is the float change, so
the rounded value written may repeat the previous one. -/
theorem servo_write_on_float_change (s : SkellyState) (now : Nat) :
    (((graduallyMoveServos now s).rLog = s.rLog ∧
        (graduallyMoveServos now s).currentRotation = s.currentRotation) ∨
      ((graduallyMoveServos now s).currentRotation ≠ s.currentRotation ∧
        (graduallyMoveServos now s).rLog =
          cRound ((graduallyMoveServos now s).currentRotation) :: s.rLog)) ∧
    (((graduallyMoveServos now s).xLog = s.xLog ∧
        (graduallyMoveServos now s).currentX = s.currentX) ∨
      ((graduallyMoveServos now s).currentX ≠ s.currentX ∧
        (graduallyMoveServos now s).xLog =
          cRound ((graduallyMoveServos now s).currentX) :: s.xLog)) ∧
    (((graduallyMoveServos now s).yLog = s.yLog ∧
        (graduallyMoveServos now s).currentY = s.currentY) ∨
      ((graduallyMoveServos now s).currentY ≠ s.currentY ∧
        (graduallyMoveServos now s).yLog =
          cRound ((graduallyMoveServos now s).currentY) :: s.yLog)) := by
  refine ⟨?_, ?_, ?_⟩
  · rw [grad_rLog, grad_currentRotation]
    split_ifs with hgate
    · rw [gradAxis_snd]
      by_cases hne : moveTowards s.currentRotation s.targetRotation
          (interpMaxMove s now) ≠ s.currentRotation
      · rw [if_pos hne]
        exact Or.inr ⟨hne, rfl⟩
      · rw [if_neg hne]
        exact Or.inl ⟨rfl, not_ne_iff.mp hne⟩
    · exact Or.inl ⟨rfl, rfl⟩
  · rw [grad_xLog, grad_currentX]
    split_ifs with hgate
    · rw [gradAxis_snd]
      by_cases hne : moveTowards s.currentX s.targetX
          (interpMaxMove s now) ≠ s.currentX
      · rw [if_pos hne]
        exact Or.inr ⟨hne, rfl⟩
      · rw [if_neg hne]
        exact Or.inl ⟨rfl, not_ne_iff.mp hne⟩
    · exact Or.inl ⟨rfl, rfl⟩
  · rw [grad_yLog, grad_currentY]
    split_ifs with hgate
    · rw [gradAxis_snd]
      by_cases hne : moveTowards s.currentY s.targetY
          (interpMaxMove s now) ≠ s.currentY
      · rw [if_pos hne]
        exact Or.inr ⟨hne, rfl⟩
      · rw [if_neg hne]
        exact Or.inl ⟨rfl, not_ne_iff.mp hne⟩
    · exact Or.inl ⟨rfl, rfl⟩

/-- C4 counterexample: the phrase gate measures from the instant the
previous phrase was selected, not from the instant it ended.  In the
concrete trace, HELLO THERE is installed at 10000, its last letter is
consumed at 11300 (ending the phrase), and generateNewPhrase installs a new
phrase already at 20000, only 8700 ms after the end; the claimed guard
PHRASE_DURATION-since-end is violated. -/
theorem phrase_gate_counterexample :
    ¬ (∀ (s : SkellyState) (tEnd tNow r : Nat),
        strlenBuf s.currentPhrase ≠ 0 →
        strlenBuf (updateJawMovement tEnd s).currentPhrase = 0 →
        strlenBuf (generateNewPhrase tNow r
          (updateJawMovement tEnd s)).currentPhrase ≠ 0 →
        PHRASE_DURATION ≤ tNow - tEnd) := by
  intro h
  have := h c4beforeEnd 11300 20000 1 (by decide) (by decide) (by decide)
  exact absurd this (by decide)

/-- C4 as amended: generateNewPhrase changes the phrase state only when the
current phrase is empty and PHRASE_DURATION has elapsed since the previous
phrase was selected (the timestamp records selection, not completion); while
a phrase is mid-speech it never selects a new phrase. -/
theorem phrase_selection_only_when_idle (s : SkellyState) (now r : Nat) :
    (((generateNewPhrase now r s).currentPhrase ≠ s.currentPhrase ∨
        (generateNewPhrase now r s).lastPhraseTime ≠ s.lastPhraseTime) →
      phraseGet s.currentPhrase 0 = nullChar ∧
        PHRASE_DURATION ≤ now - s.lastPhraseTime) ∧
    (phraseGet s.currentPhrase 0 ≠ nullChar → generateNewPhrase now r s = s)
    := by
  constructor
  · intro hch
    by_cases hg : phraseGet s.currentPhrase 0 = nullChar ∧
        PHRASE_DURATION ≤ now - s.lastPhraseTime
    · exact hg
    · unfold generateNewPhrase at hch
      rw [if_neg hg] at hch
      rcases hch with h | h <;> exact absurd rfl h
  · intro hne
    unfold generateNewPhrase
    rw [if_neg (by intro hg; exact hne hg.1)]

/-- Witness for the amended C4: the very first selection at time 10000
changes the phrase buffer, so the gate held at that instant; and while
HELLO THERE is active a generateNewPhrase call leaves the state untouched.
-/
theorem phrase_selection_only_when_idle_witness :
    (phraseGet initialState.currentPhrase 0 = nullChar ∧
      PHRASE_DURATION ≤ 10000 - initialState.lastPhraseTime) ∧
    generateNewPhrase 20000 1 c4afterFirst = c4afterFirst :=
  ⟨(phrase_selection_only_when_idle initialState 10000 0).1
      (Or.inl (by decide)),
    (phrase_selection_only_when_idle c4afterFirst 20000 1).2 (by decide)⟩

/-!  Projection lemmas for the jaw smoother. -/

lemma smoothJaw_read (now : Nat) (t : Int) (s : SkellyState) :
    jawRead (smoothJawMovement now t s) =
      if cAbs (jawRead s - t) > JAW_SMOOTHING_STEP * 2 then t
      else if JAW_SMOOTH_INTERVAL ≤ now - s.lastJawSmoothTime
      then jawStep (jawRead s) t
      else jawRead s := by
  simp only [smoothJawMovement]
  split_ifs <;> simp [jawRead]

lemma smoothJaw_last (now : Nat) (t : Int) (s : SkellyState) :
    (smoothJawMovement now t s).lastJawSmoothTime =
      if cAbs (jawRead s - t) > JAW_SMOOTHING_STEP * 2
      then s.lastJawSmoothTime
      else if JAW_SMOOTH_INTERVAL ≤ now - s.lastJawSmoothTime then now
      else s.lastJawSmoothTime := by
  simp only [smoothJawMovement]
  split_ifs <;> rfl

lemma jawStep_self (t : Int) : jawStep t t = t := by
  simp only [jawStep]
  split_ifs <;> omega

lemma jawStep_close (c t : Int)
    (h : cAbs (c - t) ≤ JAW_SMOOTHING_STEP * 2) :
    cAbs (jawStep c t - t) ≤ JAW_SMOOTHING_STEP * 2 := by
  simp only [jawStep, cAbs, JAW_SMOOTHING_STEP] at *
  split_ifs at * <;> omega

lemma jawStep_twice (c t : Int)
    (h : cAbs (c - t) ≤ JAW_SMOOTHING_STEP * 2) :
    jawStep (jawStep c t) t = t := by
  simp only [jawStep, cAbs, JAW_SMOOTHING_STEP] at *
  split_ifs at * <;> omega

/-- C5: with a fixed target, two successive smoothJawMovement calls whose
smoothing cadence has elapsed drive the jaw exactly onto the target (a
distance above twice the step snaps at once, a distance of at most twice the
step closes in at most two clamped steps), and no single call ever takes the
jaw past the target by more than one smoothing step. -/
theorem jaw_smoothing_converges :
    (∀ (s : SkellyState) (t : Int) (n1 n2 : Nat),
      JAW_OPEN_MAX ≤ t → t ≤ JAW_CLOSED →
      JAW_SMOOTH_INTERVAL ≤ n1 - s.lastJawSmoothTime →
      JAW_SMOOTH_INTERVAL ≤ n2 -
        (smoothJawMovement n1 t s).lastJawSmoothTime →
      jawRead (smoothJawMovement n2 t (smoothJawMovement n1 t s)) = t) ∧
    (∀ (s : SkellyState) (t : Int) (n : Nat),
      (jawRead s ≤ t →
        jawRead (smoothJawMovement n t s) ≤ t + JAW_SMOOTHING_STEP) ∧
      (t ≤ jawRead s →
        t - JAW_SMOOTHING_STEP ≤ jawRead (smoothJawMovement n t s))) := by
  constructor
  · intro s t n1 n2 _ _ h1 h2
    rw [smoothJaw_last] at h2
    rw [smoothJaw_read, smoothJaw_read, smoothJaw_last]
    by_cases hA : cAbs (jawRead s - t) > JAW_SMOOTHING_STEP * 2
    · simp only [if_pos hA] at h2 ⊢
      rw [sub_self]
      rw [if_neg (by simp [cAbs, JAW_SMOOTHING_STEP] :
        ¬ cAbs (0 : Int) > JAW_SMOOTHING_STEP * 2)]
      split_ifs
      simp [jawStep_self]
    · have hB : cAbs (jawRead s - t) ≤ JAW_SMOOTHING_STEP * 2 :=
        not_lt.mp hA
      simp only [if_neg hA, if_pos h1] at h2 ⊢
      rw [if_neg (not_lt.mpr (jawStep_close _ _ hB)), if_pos h2]
      exact jawStep_twice _ _ hB
  · intro s t n
    constructor <;> intro h <;> rw [smoothJaw_read] <;>
      simp only [cAbs, jawStep, JAW_SMOOTHING_STEP, JAW_SMOOTH_INTERVAL] <;>
      split_ifs <;> omega

/-- Witness for C5: from the initial state (jaw at 115), the target 70 is
reached after two cadence-elapsed calls, and a single call toward target 115
stays within one smoothing step of it. -/
theorem jaw_smoothing_converges_witness :
    jawRead (smoothJawMovement 20 70 (smoothJawMovement 10 70 initialState))
        = 70 ∧
    jawRead (smoothJawMovement 10 115 initialState) ≤
      115 + JAW_SMOOTHING_STEP ∧
    115 - JAW_SMOOTHING_STEP ≤ jawRead (smoothJawMovement 10 115 initialState)
    :=
  ⟨jaw_smoothing_converges.1 initialState 70 10 20 (by decide) (by decide)
      (by decide) (by decide),
    (jaw_smoothing_converges.2 initialState 115 10).1 (by decide),
    (jaw_smoothing_converges.2 initialState 115 10).2 (by decide)⟩

/-- C6: smoothJawMovement snaps straight onto the target in the same call
whenever the distance exceeds twice JAW_SMOOTHING_STEP; otherwise, once the
smoothing cadence has elapsed, it moves exactly one step toward the target,
clamped so it cannot pass it. -/
theorem jaw_two_tier_policy (s : SkellyState) (t : Int) (now : Nat) :
    (cAbs (jawRead s - t) > JAW_SMOOTHING_STEP * 2 →
      jawRead (smoothJawMovement now t s) = t) ∧
    (cAbs (jawRead s - t) ≤ JAW_SMOOTHING_STEP * 2 →
      JAW_SMOOTH_INTERVAL ≤ now - s.lastJawSmoothTime →
      jawRead (smoothJawMovement now t s) =
        if jawRead s < t then min (jawRead s + JAW_SMOOTHING_STEP) t
        else max (jawRead s - JAW_SMOOTHING_STEP) t) := by
  constructor
  · intro h
    rw [smoothJaw_read, if_pos h]
  · intro h1 h2
    rw [smoothJaw_read, if_neg (not_lt.mpr h1), if_pos h2]
    simp only [jawStep, JAW_SMOOTHING_STEP]
    split_ifs <;> omega

/-- Witness for C6: from the initial state (jaw at 115), target 70 is more
than two steps away and is snapped to at once, while target 110 is within
two steps and the jaw takes one clamped step. -/
theorem jaw_two_tier_policy_witness :
    jawRead (smoothJawMovement 10 70 initialState) = 70 ∧
    jawRead (smoothJawMovement 10 110 initialState) =
      (if jawRead initialState < 110
        then min (jawRead initialState + JAW_SMOOTHING_STEP) 110
        else max (jawRead initialState - JAW_SMOOTHING_STEP) 110) :=
  ⟨(jaw_two_tier_policy initialState 70 10).1 (by decide),
    (jaw_two_tier_policy initialState 110 10).2 (by decide) (by decide)⟩

lemma strlenBuf_cons_ne (a : Char) (tl : List Char) (ha : a ≠ nullChar) :
    strlenBuf (a :: tl) = strlenBuf tl + 1 := by
  simp [strlenBuf, List.takeWhile_cons, ha]

lemma strlenBuf_cons_null (a : Char) (tl : List Char) (ha : a = nullChar) :
    strlenBuf (a :: tl) = 0 := by
  simp [strlenBuf, List.takeWhile_cons, ha]

lemma strlenBuf_le_of_getD_null (l : List Char) (i : Nat)
    (h : phraseGet l i = nullChar) : strlenBuf l ≤ i := by
  induction l generalizing i with
  | nil => simp [strlenBuf]
  | cons a tl ih =>
    by_cases ha : a = nullChar
    · simp [strlenBuf_cons_null a tl ha]
    · cases i with
      | zero => exact absurd h ha
      | succ j =>
        rw [strlenBuf_cons_ne a tl ha]
        have hj := ih j h
        omega

lemma strlenBuf_getD_ne (l : List Char) (i : Nat) (h : i < strlenBuf l) :
    phraseGet l i ≠ nullChar := by
  induction l generalizing i with
  | nil => simp [strlenBuf] at h
  | cons a tl ih =>
    by_cases ha : a = nullChar
    · rw [strlenBuf_cons_null a tl ha] at h
      omega
    · cases i with
      | zero => exact ha
      | succ j =>
        rw [strlenBuf_cons_ne a tl ha] at h
        exact ih j (by omega)

lemma strlenBuf_pos (l : List Char) (h : phraseGet l 0 ≠ nullChar) :
    0 < strlenBuf l := by
  cases l with
  | nil => exact absurd rfl h
  | cons a tl =>
    rw [strlenBuf_cons_ne a tl h]
    omega

lemma strlenBuf_set_zero (l : List Char) (hl : l ≠ []) :
    strlenBuf (l.set 0 nullChar) = 0 := by
  cases l with
  | nil => exact absurd rfl hl
  | cons a tl =>
    rw [List.set_cons_zero]
    exact strlenBuf_cons_null _ _ rfl

lemma phraseGet_set_ne (l : List Char) (i j : Nat) (a : Char) (h : i ≠ j) :
    phraseGet (l.set i a) j = phraseGet l j := by
  induction l generalizing i j with
  | nil => rfl
  | cons b tl ih =>
    cases i with
    | zero =>
      cases j with
      | zero => exact absurd rfl h
      | succ k => rfl
    | succ i2 =>
      cases j with
      | zero => rfl
      | succ k =>
        simp only [List.set_cons_succ, phraseGet, List.getD_cons_succ]
        exact ih i2 k (by omega)

lemma phraseGet_set_self (l : List Char) (i : Nat) (a : Char)
    (h : i < l.length) : phraseGet (l.set i a) i = a := by
  induction l generalizing i with
  | nil => simp at h
  | cons b tl ih =>
    cases i with
    | zero => rfl
    | succ j =>
      simp only [List.set_cons_succ, phraseGet, List.getD_cons_succ]
      exact ih j (by simpa using h)

lemma copyPhraseIntoBuffer_length (dest src : List Char) :
    (copyPhraseIntoBuffer dest src).length = dest.length := by
  simp [copyPhraseIntoBuffer, strncpyBuf]

lemma copyPhraseIntoBuffer_getD19 (dest src : List Char)
    (hd : dest.length = 20) :
    phraseGet (copyPhraseIntoBuffer dest src) 19 = nullChar := by
  have hl : (strncpyBuf dest src 19).length = 20 := by
    simp [strncpyBuf, hd]
  unfold copyPhraseIntoBuffer
  exact phraseGet_set_self _ 19 _ (by omega)

lemma letterToJaw_getD_bounds (i : Nat) :
    0 ≤ letterToJaw.getD i 0 ∧ letterToJaw.getD i 0 ≤ 50 := by
  by_cases h : i < 26
  · have hall : ∀ j < 26, 0 ≤ letterToJaw.getD j 0 ∧
        letterToJaw.getD j 0 ≤ 50 := by decide
    exact hall i h
  · rw [List.getD_eq_default]
    · exact ⟨le_refl 0, by norm_num⟩
    · simp only [letterToJaw, List.length_cons, List.length_nil]
      omega

/-- C7: the letter-to-aperture mapping is total and deterministic, returns a
value in [0, 50] for every character, and every character outside the
uppercase alphabet yields 0, the value whose remapping is the fully closed
jaw position. -/
theorem letter_mapping_total (c : Char) :
    (0 ≤ getJawPositionForLetter c ∧ getJawPositionForLetter c ≤ 50) ∧
    (¬('A' ≤ c ∧ c ≤ 'Z') →
      getJawPositionForLetter c = 0 ∧
      cMap (getJawPositionForLetter c) 0 50 JAW_CLOSED JAW_OPEN_MAX =
        JAW_CLOSED) := by
  unfold getJawPositionForLetter
  by_cases h : 'A' ≤ c ∧ c ≤ 'Z'
  · rw [if_pos h]
    exact ⟨letterToJaw_getD_bounds _, fun hc => absurd h hc⟩
  · rw [if_neg h]
    exact ⟨⟨le_refl 0, by norm_num⟩, fun hc => ⟨rfl, by decide⟩⟩

/-- Witness for C7: the space character is outside the alphabet, maps to 0
and remaps to the closed jaw position. -/
theorem letter_mapping_total_witness :
    (0 ≤ getJawPositionForLetter ' ' ∧ getJawPositionForLetter ' ' ≤ 50) ∧
    (getJawPositionForLetter ' ' = 0 ∧
      cMap (getJawPositionForLetter ' ') 0 50 JAW_CLOSED JAW_OPEN_MAX =
        JAW_CLOSED) :=
  ⟨(letter_mapping_total (Char.ofNat 32)).1,
    (letter_mapping_total (Char.ofNat 32)).2 (by decide)⟩

/-- C8: every silent character (space, period, comma, exclamation mark)
makes updateJawMovement command the fully closed jaw target; in the phrase
HELLO THERE the space at index 5 yields the closed value, unlike the
adjacent letters O and T. -/
theorem silent_char_closes_jaw :
    (∀ (c : Char), isSilentCharacter c = true →
      jawTargetForChar c = JAW_CLOSED) ∧
    jawTargetForChar (phraseGet ("HELLO THERE".toList) 5) = JAW_CLOSED ∧
    jawTargetForChar 'O' ≠ JAW_CLOSED ∧
    jawTargetForChar 'T' ≠ JAW_CLOSED := by
  refine ⟨?_, by decide, by decide, by decide⟩
  intro c hc
  have hcases : c = ' ' ∨ c = '.' ∨ c = ',' ∨ c = '!' := by
    simp only [isSilentCharacter, Bool.or_eq_true, beq_iff_eq] at hc
    tauto
  rcases hcases with h | h | h | h <;> subst h <;> decide

/-- Witness for C8: the space character is silent and yields the closed jaw
target. -/
theorem silent_char_closes_jaw_witness :
    jawTargetForChar (Char.ofNat 32) = JAW_CLOSED :=
  silent_char_closes_jaw.1 (Char.ofNat 32) (by decide)

/-- C9: whenever generateNewPhrase copies a catalog phrase, the buffer keeps
its 20-byte size, its final byte is forced to NUL, and the stored string
length is at most 19 (sources are truncated, never overrunning); the catalog
contains a phrase of exactly 19 characters, meeting the bound. -/
theorem phrase_copy_bounded :
    (∀ (s : SkellyState) (now r : Nat),
      s.currentPhrase.length = 20 →
      phraseGet s.currentPhrase 0 = nullChar →
      PHRASE_DURATION ≤ now - s.lastPhraseTime →
      (generateNewPhrase now r s).currentPhrase.length = 20 ∧
      phraseGet (generateNewPhrase now r s).currentPhrase 19 = nullChar ∧
      strlenBuf (generateNewPhrase now r s).currentPhrase ≤ 19) ∧
    (∃ p, p ∈ phrases ∧ 19 ≤ p.toList.length) := by
  constructor
  · intro s now r hlen h0 hdur
    unfold generateNewPhrase
    rw [if_pos ⟨h0, hdur⟩]
    dsimp only
    refine ⟨?_, copyPhraseIntoBuffer_getD19 _ _ hlen, ?_⟩
    · rw [copyPhraseIntoBuffer_length]
      exact hlen
    · exact strlenBuf_le_of_getD_null _ 19
        (copyPhraseIntoBuffer_getD19 _ _ hlen)
  · exact ⟨"BOO DID I SCARE YOU", by decide, by decide⟩

/-- Witness for C9: the first phrase selection from the initial state
produces a well-terminated buffer of stored length at most 19. -/
theorem phrase_copy_bounded_witness :
    (generateNewPhrase 10000 7 initialState).currentPhrase.length = 20 ∧
    phraseGet (generateNewPhrase 10000 7 initialState).currentPhrase 19 =
      nullChar ∧
    strlenBuf (generateNewPhrase 10000 7 initialState).currentPhrase ≤ 19 :=
  phrase_copy_bounded.1 initialState 10000 7 (by decide) (by decide)
    (by decide)

lemma smoothJaw_currentPhrase (now : Nat) (t : Int) (s : SkellyState) :
    (smoothJawMovement now t s).currentPhrase = s.currentPhrase := by
  simp only [smoothJawMovement]
  split_ifs <;> rfl

lemma smoothJaw_currentLetterIndex (now : Nat) (t : Int) (s : SkellyState) :
    (smoothJawMovement now t s).currentLetterIndex = s.currentLetterIndex
    := by
  simp only [smoothJawMovement]
  split_ifs <;> rfl

lemma updateJaw_phraseFields (now : Nat) (s : SkellyState) :
    (updateJawMovement now s).currentPhrase =
      (if phraseGet s.currentPhrase 0 ≠ nullChar then
        if LETTER_DURATION ≤ now - s.lastLetterTime then
          if strlenBuf s.currentPhrase ≤ s.currentLetterIndex + 1 then
            s.currentPhrase.set 0 nullChar
          else s.currentPhrase
        else s.currentPhrase
      else s.currentPhrase) ∧
    (updateJawMovement now s).currentLetterIndex =
      (if phraseGet s.currentPhrase 0 ≠ nullChar then
        if LETTER_DURATION ≤ now - s.lastLetterTime then
          if strlenBuf s.currentPhrase ≤ s.currentLetterIndex + 1 then 0
          else s.currentLetterIndex + 1
        else s.currentLetterIndex
      else s.currentLetterIndex) := by
  simp only [updateJawMovement, smoothJaw_currentPhrase,
    smoothJaw_currentLetterIndex]
  split_ifs <;>
    simp_all [smoothJaw_currentPhrase, smoothJaw_currentLetterIndex]

lemma updateHead_phraseFields (now : Nat) (a b c : Int) (s : SkellyState) :
    (updateHeadMovement now a b c s).currentPhrase = s.currentPhrase ∧
    (updateHeadMovement now a b c s).currentLetterIndex =
      s.currentLetterIndex := by
  unfold updateHeadMovement
  split_ifs <;> exact ⟨rfl, rfl⟩

lemma randomMovements_phraseFields (now : Nat) (a b c : Int)
    (s : SkellyState) :
    (randomMovementsBetweenSentences now a b c s).currentPhrase =
      s.currentPhrase ∧
    (randomMovementsBetweenSentences now a b c s).currentLetterIndex =
      s.currentLetterIndex := by
  unfold randomMovementsBetweenSentences
  split_ifs <;> exact ⟨rfl, rfl⟩

lemma breathing_phraseFields (now : Nat) (v : ℚ) (s : SkellyState) :
    (updateBreathing now v s).currentPhrase = s.currentPhrase ∧
    (updateBreathing now v s).currentLetterIndex = s.currentLetterIndex := by
  unfold updateBreathing
  split_ifs <;> exact ⟨rfl, rfl⟩

lemma grad_phraseFields (now : Nat) (s : SkellyState) :
    (graduallyMoveServos now s).currentPhrase = s.currentPhrase ∧
    (graduallyMoveServos now s).currentLetterIndex = s.currentLetterIndex
    := by
  unfold graduallyMoveServos
  split_ifs <;> exact ⟨rfl, rfl⟩

/-- C10: the predicate saying the phrase buffer is either empty or has its
letter index strictly inside the stored string is preserved by every
scheduler operation, holds initially, and whenever a phrase is active the
character read at the letter index is in bounds and not the terminator. -/
theorem letter_index_invariant :
    phraseInv initialState ∧
    (∀ (now : Nat) (s : SkellyState), phraseInv s →
      phraseInv (updateJawMovement now s)) ∧
    (∀ (now r : Nat) (s : SkellyState), phraseInv s →
      phraseInv (generateNewPhrase now r s)) ∧
    (∀ (now : Nat) (a b c : Int) (s : SkellyState), phraseInv s →
      phraseInv (updateHeadMovement now a b c s)) ∧
    (∀ (now : Nat) (a b c : Int) (s : SkellyState), phraseInv s →
      phraseInv (randomMovementsBetweenSentences now a b c s)) ∧
    (∀ (now : Nat) (v : ℚ) (s : SkellyState), phraseInv s →
      phraseInv (updateBreathing now v s)) ∧
    (∀ (now : Nat) (s : SkellyState), phraseInv s →
      phraseInv (graduallyMoveServos now s)) ∧
    (∀ (s : SkellyState), phraseInv s →
      phraseGet s.currentPhrase 0 ≠ nullChar →
      s.currentLetterIndex < strlenBuf s.currentPhrase ∧
      phraseGet s.currentPhrase s.currentLetterIndex ≠ nullChar) := by
  refine ⟨?_, ?_, ?_, ?_, ?_, ?_, ?_, ?_⟩
  · unfold phraseInv
    exact ⟨by decide, by decide, Or.inl (by decide)⟩
  · intro now s hs
    obtain ⟨hlen, h19, hidx⟩ := hs
    have hch := updateJaw_phraseFields now s
    unfold phraseInv
    rw [hch.1, hch.2]
    by_cases h0 : phraseGet s.currentPhrase 0 ≠ nullChar
    · rw [if_pos h0, if_pos h0]
      by_cases hg : LETTER_DURATION ≤ now - s.lastLetterTime
      · rw [if_pos hg, if_pos hg]
        by_cases he : strlenBuf s.currentPhrase ≤ s.currentLetterIndex + 1
        · rw [if_pos he, if_pos he]
          have hnil : s.currentPhrase ≠ [] := by
            intro hcon
            rw [hcon] at hlen
            simp at hlen
          refine ⟨?_, ?_, Or.inl (strlenBuf_set_zero _ hnil)⟩
          · rw [List.length_set]
            exact hlen
          · rw [phraseGet_set_ne _ 0 19 _ (by omega)]
            exact h19
        · rw [if_neg he, if_neg he]
          exact ⟨hlen, h19, Or.inr (by omega)⟩
      · rw [if_neg hg, if_neg hg]
        exact ⟨hlen, h19, hidx⟩
    · rw [if_neg h0, if_neg h0]
      exact ⟨hlen, h19, hidx⟩
  · intro now r s hs
    obtain ⟨hlen, h19, hidx⟩ := hs
    unfold phraseInv generateNewPhrase
    split_ifs with hg
    · dsimp only
      refine ⟨?_, copyPhraseIntoBuffer_getD19 _ _ hlen, ?_⟩
      · rw [copyPhraseIntoBuffer_length]
        exact hlen
      · exact (Nat.eq_zero_or_pos _).imp id id
    · exact ⟨hlen, h19, hidx⟩
  · intro now a b c s hs
    have h := updateHead_phraseFields now a b c s
    unfold phraseInv at hs ⊢
    rw [h.1, h.2]
    exact hs
  · intro now a b c s hs
    have h := randomMovements_phraseFields now a b c s
    unfold phraseInv at hs ⊢
    rw [h.1, h.2]
    exact hs
  · intro now v s hs
    have h := breathing_phraseFields now v s
    unfold phraseInv at hs ⊢
    rw [h.1, h.2]
    exact hs
  · intro now s hs
    have h := grad_phraseFields now s
    unfold phraseInv at hs ⊢
    rw [h.1, h.2]
    exact hs
  · intro s hs hne
    obtain ⟨hlen, h19, hidx⟩ := hs
    have hpos : 0 < strlenBuf s.currentPhrase := strlenBuf_pos _ hne
    have hlt : s.currentLetterIndex < strlenBuf s.currentPhrase := by
      rcases hidx with h | h
      · omega
      · exact h
    exact ⟨hlt, strlenBuf_getD_ne _ _ hlt⟩

/-- Witness for C10: the invariant holds after selecting a phrase at 10000
and consuming its first letter at 10100, starting from the initial state. -/
theorem letter_index_invariant_witness :
    phraseInv (updateJawMovement 10100
      (generateNewPhrase 10000 0 initialState)) :=
  letter_index_invariant.2.1 10100 _
    (letter_index_invariant.2.2.1 10000 0 initialState
      letter_index_invariant.1)

end Skelly
